import Mathlib

/-!
Verification of the appointment scheduling and availability-rules engine of
the Roof_Connect CRM front end.

The definitions below are a shallow embedding of the TypeScript source:

- `src/types.ts` — `STATE_CONFIG`, `OPERATING_HOURS`, `BlockRule`,
  `AppointmentRecord`, `FormField`;
- `src/pages/AppointmentMaker.tsx` — `HOLIDAY_BLOCKS`, `isFieldVisible`,
  `generateClipboardText`, `isSlotUnavailable`, `isDateBlocked`;
- `src/pages/ScheduleGrid.tsx` — `isTimeBlocked`, `isDayBlocked`,
  `toggleBlockTime`, `saveBlockModal` (its diff computation), and
  `toggleDateBlockFromCalendar`.

Modelling conventions:
- Optional string fields (`time?: string`, `state?: string`) become
  `Option String`; JavaScript truthiness of such a field (`!r.state`) is the
  explicit `jsFalsy` predicate (`undefined`/`null`/`""` are falsy).
- JavaScript `Date` values that the source truncates with
  `setHours(0, 0, 0, 0)` become integer epoch-day numbers; the epoch day 0 is
  1970-01-01 (a Thursday, so `getDay` adds 4 before reducing mod 7).  Days are
  uniform (the model has no daylight-saving shifts), so the millisecond
  timestamp of a truncated date is `epochDay * msPerDay`.
- The remote store is modelled by the in-memory lists the components hold
  (`appointments`, `blockedRules`); store writes are modelled by the pure
  value the component sends (the deletion/insertion batch), with
  server-assigned identifiers passed in as parameters.
-/

namespace RoofConnect

/-- JavaScript truthiness test for an optional string field: `undefined`,
`null` and the empty string are falsy. -/
def jsFalsy : Option String → Bool
  | none => true
  | some s => s.isEmpty

/-- Per-state configuration entry of `STATE_CONFIG` (src/types.ts). -/
structure StateConfig where
  capacity : Nat
  workdays : List Nat
deriving Repr, DecidableEq

/-- `STATE_CONFIG` from src/types.ts: capacity and permitted weekdays per
state code; lookup of an unknown code yields `none` (JS `undefined`). -/
def STATE_CONFIG (code : String) : Option StateConfig :=
  if code = "GA" then some ⟨9, [1, 2, 3, 4, 5, 6]⟩
  else if code = "TN" then some ⟨9, [1, 2, 3, 4, 5, 6]⟩
  else if code = "AL" then some ⟨2, [1, 2, 3, 4, 5]⟩
  else if code = "SC" then some ⟨1, [1, 2, 3, 4, 5]⟩
  else none

/-- `OPERATING_HOURS` from src/types.ts. -/
def OPERATING_HOURS : List String :=
  ["9:00 AM", "10:00 AM", "11:00 AM", "12:00 PM",
   "1:00 PM", "2:00 PM", "3:00 PM", "4:00 PM", "5:00 PM"]

/-- `HOLIDAY_BLOCKS` from src/pages/AppointmentMaker.tsx lines 9-12. -/
def HOLIDAY_BLOCKS : List String := ["2024-12-25", "2024-01-01"]

/-- The scheduling-relevant part of an appointment's `formData` record:
the `appointmentDate`, `appointmentTime` and `state` keys, each possibly
absent. -/
structure FormData where
  appointmentDate : Option String
  appointmentTime : Option String
  state : Option String
deriving Repr, DecidableEq

/-- `AppointmentRecord` from src/types.ts (fields not consulted by the
engine are omitted). -/
structure AppointmentRecord where
  id : String
  formData : FormData
deriving Repr, DecidableEq

/-- `BlockRule` from src/types.ts: `time` absent means whole day, `state`
absent means all states. -/
structure BlockRule where
  id : String
  date : String
  time : Option String
  state : Option String
  reason : Option String
deriving Repr, DecidableEq

/-- The filter predicate on appointments used by `isSlotUnavailable`
(src/pages/AppointmentMaker.tsx lines 144-148). -/
def matchesSlot (dateStr time state : String) (a : AppointmentRecord) : Bool :=
  a.formData.appointmentDate == some dateStr &&
  a.formData.appointmentTime == some time &&
  a.formData.state == some state

/-- The block-rule predicate used by `isSlotUnavailable`
(src/pages/AppointmentMaker.tsx lines 153-157): rule matches date, exact
time, and its state is falsy (global) or equals the queried state. -/
def slotRuleMatch (dateStr time state : String) (r : BlockRule) : Bool :=
  r.date == dateStr && r.time == some time &&
  (jsFalsy r.state || r.state == some state)

/-- `isSlotUnavailable` from src/pages/AppointmentMaker.tsx lines 139-161. -/
def isSlotUnavailable (appointments : List AppointmentRecord)
    (blockedRules : List BlockRule) (dateStr time state : String) : Bool :=
  if state.isEmpty then true else
  match STATE_CONFIG state with
  | none => true
  | some config =>
    let bookings := appointments.filter (matchesSlot dateStr time state)
    if config.capacity ≤ bookings.length then true
    else if blockedRules.any (slotRuleMatch dateStr time state) then true
    else false

/-- Milliseconds per day, `1000 * 60 * 60 * 24` as in
src/pages/AppointmentMaker.tsx line 180. -/
def msPerDay : Int := 1000 * 60 * 60 * 24

/-- `Math.ceil` of the exact rational `a / b` for integers (`b > 0`):
ceiling division, written through floor division as in the usual identity
`ceil (a / b) = -floor (-a / b)`. -/
def ceilDivInt (a b : Int) : Int := -((-a).fdiv b)

/-- The `diffDays` computation of `isDateBlocked`
(src/pages/AppointmentMaker.tsx lines 179-180): millisecond difference of
the two midnight-truncated dates, divided by `msPerDay` and rounded up. -/
def diffDaysCalc (targetDay todayDay : Int) : Int :=
  ceilDivInt (targetDay * msPerDay - todayDay * msPerDay) msPerDay

/-- The lead-time step of `isDateBlocked`
(src/pages/AppointmentMaker.tsx line 182): block when `diffDays < 0`. -/
def leadTimeBlocked (targetDay todayDay : Int) : Bool :=
  diffDaysCalc targetDay todayDay < 0

/-- JavaScript `Date.prototype.getDay` on an epoch-day number: day 0
(1970-01-01) was a Thursday, so the weekday is `(epochDay + 4) mod 7`
(0 = Sunday .. 6 = Saturday). -/
def getDay (epochDay : Int) : Nat := ((epochDay + 4).emod 7).toNat

/-- Civil (year, month, day) of an epoch-day number, proleptic Gregorian
calendar (the standard days-to-civil algorithm, with floor division). -/
def civilFromDays (z0 : Int) : Int × Nat × Nat :=
  let z := z0 + 719468
  let era := z.fdiv 146097
  let doe := (z - era * 146097).toNat
  let yoe := (doe - doe / 1460 + doe / 36524 - doe / 146096) / 365
  let y := (yoe : Int) + era * 400
  let doy := doe - (365 * yoe + yoe / 4 - yoe / 100)
  let mp := (5 * doy + 2) / 153
  let d := doy - (153 * mp + 2) / 5 + 1
  let m := if mp < 10 then mp + 3 else mp + 3 - 12
  (if m ≤ 2 then y + 1 else y, m, d)

/-- Zero-padding to two digits, as `String(x).padStart(2, '0')` on a
month or day number. -/
def pad2 (n : Nat) : String := if n < 10 then "0" ++ toString n else toString n

/-- The `dateStr` computation of `isDateBlocked`
(src/pages/AppointmentMaker.tsx line 187) and `formatDate` of
src/pages/ScheduleGrid.tsx lines 74-79: `YYYY-MM-DD` of the truncated
date. -/
def formatDate (epochDay : Int) : String :=
  let ymd := civilFromDays epochDay
  toString ymd.1 ++ "-" ++ pad2 ymd.2.1 ++ "-" ++ pad2 ymd.2.2

/-- The whole-day block-rule predicate used by `isDateBlocked`
(src/pages/AppointmentMaker.tsx lines 195-199): rule matches date, has no
time (falsy), and its state is falsy (global) or equals the selected
state. -/
def dayRuleMatch (dateStr state : String) (r : BlockRule) : Bool :=
  r.date == dateStr && jsFalsy r.time &&
  (jsFalsy r.state || r.state == some state)

/-- `isDateBlocked` from src/pages/AppointmentMaker.tsx lines 164-207.
`stateVal` is `formData['state']`; `targetDay` and `todayDay` are the
midnight-truncated target date and current date as epoch-day numbers. -/
def isDateBlocked (appointments : List AppointmentRecord)
    (blockedRules : List BlockRule) (stateVal : Option String)
    (targetDay todayDay : Int) : Bool :=
  if jsFalsy stateVal then true else
  match STATE_CONFIG (stateVal.getD "") with
  | none => true
  | some config =>
    if leadTimeBlocked targetDay todayDay then true
    else if !(config.workdays.contains (getDay targetDay)) then true
    else
      let dateStr := formatDate targetDay
      if HOLIDAY_BLOCKS.contains dateStr then true
      else if blockedRules.any (dayRuleMatch dateStr (stateVal.getD "")) then true
      else if OPERATING_HOURS.all
          (fun t => isSlotUnavailable appointments blockedRules dateStr t (stateVal.getD "")) then
        true
      else false

/-- `isTimeBlocked` from src/pages/ScheduleGrid.tsx lines 91-97. -/
def isTimeBlocked (blockedRules : List BlockRule)
    (dateStr time state : String) : Bool :=
  blockedRules.any fun r =>
    r.date == dateStr && r.time == some time &&
    (jsFalsy r.state || r.state == some state)

/-- `isDayBlocked` from src/pages/ScheduleGrid.tsx lines 99-101: `state`
is the optional state argument (`undefined` when querying the global
scope). -/
def isDayBlocked (rules : List BlockRule) (dStr : String)
    (state : Option String) : Bool :=
  rules.any fun r =>
    r.date == dStr && jsFalsy r.time &&
    (jsFalsy r.state || (!(jsFalsy state) && r.state == state))

/-- `toggleBlockTime` from src/pages/ScheduleGrid.tsx lines 118-146,
modelled on the success path: if a rule matching (date, time, state scope)
exists, it is deleted; otherwise a new slot rule is inserted with the
server-assigned identifier `newId`. -/
def toggleBlockTime (blockedRules : List BlockRule)
    (dateStr time state newId : String) : List BlockRule :=
  match blockedRules.find? (fun r =>
      r.date == dateStr && r.time == some time &&
      (jsFalsy r.state || r.state == some state)) with
  | some existing => blockedRules.filter (fun r => r.id != existing.id)
  | none =>
    blockedRules ++ [⟨newId, dateStr, some time, some state, some "Manual Slot Block"⟩]

/-- `toggleDateBlockFromCalendar` from src/pages/ScheduleGrid.tsx lines
207-251, acting on the working copy `tempRules` for the date `dStr`.
`blockStateFilter` is `none` for the "ALL" filter (the code maps `'ALL'`
to `undefined`), otherwise the selected state; `newId` is the
client-generated temporary identifier for a newly added rule. -/
def toggleDateBlockFromCalendar (tempRules : List BlockRule) (dStr : String)
    (blockStateFilter : Option String) (newId : String) : List BlockRule :=
  let targetState := blockStateFilter
  if isDayBlocked tempRules dStr targetState then
    tempRules.filter fun r =>
      if !(r.date == dStr && jsFalsy r.time) then true
      else
        match targetState with
        | none => r.state.isSome
        | some ts => r.state != some ts
  else
    tempRules ++ [⟨newId, dStr, none, targetState, some "Manual Calendar Block"⟩]

/-- A block rule as sent to the store on insertion: the client-side `id`
is omitted (`saveBlockModal` strips it before insert,
src/pages/ScheduleGrid.tsx line 179). -/
structure BlockRuleInsert where
  date : String
  time : Option String
  state : Option String
  reason : Option String
deriving Repr, DecidableEq

/-- Dropping the client identifier from a rule, as the destructuring
`({ id, ...rest }) => rest` of src/pages/ScheduleGrid.tsx line 179. -/
def stripId (r : BlockRule) : BlockRuleInsert := ⟨r.date, r.time, r.state, r.reason⟩

/-- The batch computed by `saveBlockModal`
(src/pages/ScheduleGrid.tsx lines 157-193): the identifiers to delete
(committed rules whose id is absent from the working copy) and the
payloads to insert (working-copy rules whose id is absent from the
committed set, with ids stripped). -/
def saveBlockModalBatch (blockedRules tempBlockedRules : List BlockRule) :
    List String × List BlockRuleInsert :=
  let added := tempBlockedRules.filter
    (fun tr => !(blockedRules.any (fun br => br.id == tr.id)))
  let removed := blockedRules.filter
    (fun br => !(tempBlockedRules.any (fun tr => tr.id == br.id)))
  (removed.map (fun r => r.id), added.map stripId)

/-- `ConditionalLogic` from src/types.ts (visibility predicate of a form
field); the compared value is modelled as a string, as all form inputs
produce string values. -/
structure ConditionalLogic where
  fieldId : String
  value : String
deriving Repr, DecidableEq

/-- `FormField` from src/types.ts, restricted to the fields
`generateClipboardText` consults. `pre` and `suf` are the source's
optional clipboard prefix and suffix strings. -/
structure FormField where
  id : String
  pre : Option String
  suf : Option String
  showWhen : Option ConditionalLogic
deriving Repr, DecidableEq

/-- Lookup in the `formData` record, modelled as an association list
(first binding wins). -/
def getField (data : List (String × String)) (key : String) : Option String :=
  (data.find? (fun p => p.1 == key)).map (fun p => p.2)

/-- `isFieldVisible` from src/pages/AppointmentMaker.tsx lines 110-113. -/
def isFieldVisible (field : FormField) (currentData : List (String × String)) : Bool :=
  match field.showWhen with
  | none => true
  | some c => getField currentData c.fieldId == some c.value

/-- A character removed by the emoji-stripping regex
`/[\u{1F600}-\u{1F64F}]/gu` of src/pages/AppointmentMaker.tsx line 123. -/
def isEmojiChar (c : Char) : Bool :=
  0x1F600 ≤ c.toNat && c.toNat ≤ 0x1F64F

/-- The emoji-stripping `replace` call of
src/pages/AppointmentMaker.tsx line 123. -/
def stripEmoji (s : String) : String :=
  String.mk (s.data.filter (fun c => !isEmojiChar c))

/-- The text a single field contributes when emitted:
`prefix + value + suffix` with absent prefix/suffix as `''`
(src/pages/AppointmentMaker.tsx line 119). -/
def fieldText (data : List (String × String)) (f : FormField) : String :=
  (f.pre.getD "") ++ (getField data f.id).getD "" ++ (f.suf.getD "")

/-- `generateClipboardText` from src/pages/AppointmentMaker.tsx lines
115-125: fold over the schema appending each visible, truthy field's
text, append the fixed confirmation line, strip emoji. -/
def generateClipboardText (data : List (String × String))
    (currentSchema : List FormField) : String :=
  let text := currentSchema.foldl
    (fun acc f =>
      if isFieldVisible f data && !(jsFalsy (getField data f.id))
      then acc ++ fieldText data f else acc) ""
  stripEmoji (text ++ "Did you confirm the physical address?: Yes")

/-- Concatenation of a list of strings in order. -/
def concatTexts (l : List String) : String := l.foldr (· ++ ·) ""

/-- The clipboard text as the specification words it (spec §4.2): the
concatenation, in schema order, of `prefix + value + suffix` over exactly
the visible fields with a non-empty value, followed by the fixed trailing
confirmation line, with emoji code points stripped from the result. -/
def clipboardTextSpec (data : List (String × String))
    (schema : List FormField) : String :=
  stripEmoji
    (concatTexts
      ((schema.filter
          (fun f => isFieldVisible f data && !(jsFalsy (getField data f.id)))).map
        (fieldText data)) ++ "Did you confirm the physical address?: Yes")

/-! ## Helper lemmas -/

theorem ceilDivInt_mul_cancel (k m : Int) (h : m ≠ 0) : ceilDivInt (k * m) m = k := by
  unfold ceilDivInt
  rw [← Int.neg_mul, Int.mul_fdiv_cancel _ h, neg_neg]

theorem msPerDay_ne_zero : msPerDay ≠ 0 := by decide

theorem diffDaysCalc_eq (t d : Int) : diffDaysCalc t d = t - d := by
  unfold diffDaysCalc
  rw [← Int.sub_mul, ceilDivInt_mul_cancel _ _ msPerDay_ne_zero]

theorem leadTimeBlocked_iff (t d : Int) : leadTimeBlocked t d = true ↔ t < d := by
  unfold leadTimeBlocked
  rw [diffDaysCalc_eq]
  simp only [decide_eq_true_eq]
  omega

theorem STATE_CONFIG_empty : STATE_CONFIG "" = none := by decide

theorem isSlotUnavailable_true_iff (appts : List AppointmentRecord)
    (rules : List BlockRule) (d t reg : String) :
    isSlotUnavailable appts rules d t reg = true ↔
      STATE_CONFIG reg = none ∨
      ∃ c, STATE_CONFIG reg = some c ∧
        (c.capacity ≤ (appts.filter (matchesSlot d t reg)).length ∨
         rules.any (slotRuleMatch d t reg) = true) := by
  unfold isSlotUnavailable
  by_cases he : reg.isEmpty = true
  · have hr : reg = "" := (String.isEmpty_iff reg).mp he
    subst hr
    simp [he, STATE_CONFIG_empty]
  · simp only [he, if_false, Bool.false_eq_true]
    cases hc : STATE_CONFIG reg with
    | none => simp
    | some c =>
      by_cases hcap : c.capacity ≤ (appts.filter (matchesSlot d t reg)).length
      · simp [hcap]
      · by_cases hany : rules.any (slotRuleMatch d t reg) = true
        · simp [hcap, hany]
        · simp [hcap, hany]

theorem isDateBlocked_false_iff (appts : List AppointmentRecord)
    (rules : List BlockRule) (sv : Option String) (t d : Int) :
    isDateBlocked appts rules sv t d = false ↔
      jsFalsy sv = false ∧
      ∃ c, STATE_CONFIG (sv.getD "") = some c ∧
        leadTimeBlocked t d = false ∧
        c.workdays.contains (getDay t) = true ∧
        HOLIDAY_BLOCKS.contains (formatDate t) = false ∧
        rules.any (dayRuleMatch (formatDate t) (sv.getD "")) = false ∧
        (OPERATING_HOURS.all fun tm =>
          isSlotUnavailable appts rules (formatDate t) tm (sv.getD "")) = false := by
  unfold isDateBlocked
  cases hf : jsFalsy sv with
  | true => simp [hf]
  | false =>
    simp only [hf, if_false, Bool.false_eq_true]
    cases hc : STATE_CONFIG (sv.getD "") with
    | none => simp
    | some c =>
      by_cases h1 : leadTimeBlocked t d = true
      · simp [h1]
      · by_cases h2 : c.workdays.contains (getDay t) = true
        · by_cases h3 : HOLIDAY_BLOCKS.contains (formatDate t) = true
          · simp [h1, h2, h3]
          · by_cases h4 : rules.any (dayRuleMatch (formatDate t) (sv.getD "")) = true
            · simp [h1, h2, h3, h4]
            · by_cases h5 : (OPERATING_HOURS.all fun tm =>
                  isSlotUnavailable appts rules (formatDate t) tm (sv.getD "")) = true
              · simp [h1, h2, h3, h4, h5]
              · simp [h1, h2, h3, h4, h5]
        · simp [h1, h2]

/-! ## Claim theorems -/

/-- C1: `isSlotUnavailable(d, t, r)` is true exactly when `r` is not a key of
the state-capacity table, or the number of appointments whose `formData`
matches `(appointmentDate = d, appointmentTime = t, state = r)` is at least
the region's capacity, or some block rule has `date = d`, time exactly `t`,
and state absent (falsy) or equal to `r`; the capacity and block-rule checks
are independent and each alone blocks.  In particular, with capacity 2 ("AL")
and exactly 2 matching appointments the result is true, and with 1 it is
false. -/
theorem isSlotUnavailable_spec :
    (∀ (appts : List AppointmentRecord) (rules : List BlockRule) (d t reg : String),
      isSlotUnavailable appts rules d t reg = true ↔
        STATE_CONFIG reg = none ∨
        ∃ c, STATE_CONFIG reg = some c ∧
          (c.capacity ≤ (appts.filter (matchesSlot d t reg)).length ∨
           ∃ r ∈ rules, r.date = d ∧ r.time = some t ∧
             (jsFalsy r.state = true ∨ r.state = some reg))) ∧
    isSlotUnavailable
      [⟨"a1", ⟨some "2025-01-07", some "9:00 AM", some "AL"⟩⟩,
       ⟨"a2", ⟨some "2025-01-07", some "9:00 AM", some "AL"⟩⟩]
      [] "2025-01-07" "9:00 AM" "AL" = true ∧
    isSlotUnavailable
      [⟨"a1", ⟨some "2025-01-07", some "9:00 AM", some "AL"⟩⟩]
      [] "2025-01-07" "9:00 AM" "AL" = false := by
  refine ⟨?_, by decide, by decide⟩
  intro appts rules d t reg
  rw [isSlotUnavailable_true_iff]
  apply or_congr Iff.rfl
  apply exists_congr; intro c
  apply and_congr Iff.rfl
  apply or_congr Iff.rfl
  rw [List.any_eq_true]
  apply Iff.intro
  · rintro ⟨r, hr, hm⟩
    simp only [slotRuleMatch, Bool.and_eq_true, Bool.or_eq_true, beq_iff_eq] at hm
    exact ⟨r, hr, hm.1.1, hm.1.2, hm.2⟩
  · rintro ⟨r, hr, h1, h2, h3⟩
    refine ⟨r, hr, ?_⟩
    simp only [slotRuleMatch, Bool.and_eq_true, Bool.or_eq_true, beq_iff_eq]
    exact ⟨⟨h1, h2⟩, h3⟩

/-- C2: the lead-time step of `isDateBlocked` blocks a date exactly when it
is strictly before today under date-only comparison; any strictly past date
is blocked by `isDateBlocked` for every region and every appointment/rule
set, and a date equal to today is never blocked by the lead-time step
alone. -/
theorem leadTime_spec :
    (∀ t d : Int, leadTimeBlocked t d = true ↔ t < d) ∧
    (∀ (appts : List AppointmentRecord) (rules : List BlockRule)
      (sv : Option String) (t d : Int),
      t < d → isDateBlocked appts rules sv t d = true) ∧
    (∀ d : Int, leadTimeBlocked d d = false) := by
  refine ⟨leadTimeBlocked_iff, ?_, ?_⟩
  · intro appts rules sv t d hlt
    cases hb : isDateBlocked appts rules sv t d with
    | true => rfl
    | false =>
      exfalso
      rw [isDateBlocked_false_iff] at hb
      obtain ⟨-, c, -, hlead, -⟩ := hb
      rw [Bool.eq_false_iff] at hlead
      exact hlead ((leadTimeBlocked_iff t d).mpr hlt)
  · intro d
    rw [Bool.eq_false_iff]
    intro h
    exact absurd ((leadTimeBlocked_iff d d).mp h) (lt_irrefl d)

/-- C2, witness: the past date `-1` with today `0` is blocked (for the empty
store and no region selected). -/
theorem leadTime_spec_witness :
    ((-1 : Int) < 0 ∧ isDateBlocked [] [] none (-1) 0 = true) ∧
    leadTimeBlocked (-1) 0 = true ∧ leadTimeBlocked 5 5 = false :=
  ⟨⟨by decide, leadTime_spec.2.1 [] [] none (-1) 0 (by decide)⟩,
   (leadTime_spec.1 (-1) 0).mpr (by decide), leadTime_spec.2.2 5⟩

/-- C3: with no region selected (falsy state value) or an unrecognized
region code, `isDateBlocked` is true for every date and `isSlotUnavailable`
is true for every date and time; both are total Lean functions, so invalid
inputs resolve to the blocked/unavailable answer rather than an error. -/
theorem engine_failsafe_total :
    (∀ sv : Option String, jsFalsy sv = true →
      ∀ (appts : List AppointmentRecord) (rules : List BlockRule) (t d : Int),
        isDateBlocked appts rules sv t d = true) ∧
    (∀ reg : String, STATE_CONFIG reg = none →
      (∀ (appts : List AppointmentRecord) (rules : List BlockRule) (t d : Int),
        isDateBlocked appts rules (some reg) t d = true) ∧
      (∀ (appts : List AppointmentRecord) (rules : List BlockRule) (ds tm : String),
        isSlotUnavailable appts rules ds tm reg = true)) := by
  constructor
  · intro sv hsv appts rules t d
    unfold isDateBlocked
    simp [hsv]
  · intro reg hreg
    constructor
    · intro appts rules t d
      unfold isDateBlocked
      cases hf : jsFalsy (some reg) with
      | true => simp
      | false => simp [Option.getD_some, hreg]
    · intro appts rules ds tm
      unfold isSlotUnavailable
      by_cases he : ds.isEmpty = true
      · simp [hreg]
      · simp [hreg]

/-- C3, witness: the unselected region and the unknown region "FL" are
blocked/unavailable everywhere. -/
theorem engine_failsafe_total_witness :
    (jsFalsy none = true ∧ isDateBlocked [] [] none 0 0 = true) ∧
    (STATE_CONFIG "FL" = none ∧
      isDateBlocked [] [] (some "FL") 0 0 = true ∧
      isSlotUnavailable [] [] "2025-01-07" "9:00 AM" "FL" = true) :=
  ⟨⟨by decide, engine_failsafe_total.1 none (by decide) [] [] 0 0⟩,
   ⟨by decide, (engine_failsafe_total.2 "FL" (by decide)).1 [] [] 0 0,
    (engine_failsafe_total.2 "FL" (by decide)).2 [] [] "2025-01-07" "9:00 AM"⟩⟩

/-- C4: a whole-day block rule (falsy time) whose date is the target date
and whose state is absent (falsy) or equal to the region makes
`isDateBlocked` true for that region, regardless of the appointments and of
any per-slot occupancy; in particular a rule with neither time nor state
blocks the date for every region. -/
theorem wholeDay_block_dominance :
    ∀ (appts : List AppointmentRecord) (rules : List BlockRule)
      (reg : String) (t d : Int),
      (∃ r ∈ rules, r.date = formatDate t ∧ jsFalsy r.time = true ∧
        (jsFalsy r.state = true ∨ r.state = some reg)) →
      isDateBlocked appts rules (some reg) t d = true := by
  intro appts rules reg t d h
  cases hb : isDateBlocked appts rules (some reg) t d with
  | true => rfl
  | false =>
    exfalso
    rw [isDateBlocked_false_iff] at hb
    obtain ⟨-, c, -, -, -, -, hany, -⟩ := hb
    rw [Bool.eq_false_iff] at hany
    apply hany
    rw [List.any_eq_true]
    obtain ⟨r, hr, h1, h2, h3⟩ := h
    refine ⟨r, hr, ?_⟩
    simp only [dayRuleMatch, Option.getD_some, Bool.and_eq_true, Bool.or_eq_true, beq_iff_eq]
    exact ⟨⟨h1, h2⟩, by cases h3 with
      | inl h => exact Or.inl h
      | inr h => exact Or.inr (by rw [h])⟩

/-- C4, witness: a global whole-day rule on 2025-12-25 blocks that date for
"GA" even though every slot has free capacity. -/
theorem wholeDay_block_dominance_witness :
    (let r : BlockRule := ⟨"r1", "2025-12-25", none, none, none⟩;
      r.date = formatDate 20447 ∧ jsFalsy r.time = true ∧ jsFalsy r.state = true) ∧
    isDateBlocked [] [⟨"r1", "2025-12-25", none, none, none⟩] (some "GA") 20447 20447 = true :=
  ⟨⟨by decide, by decide, by decide⟩,
   wholeDay_block_dominance [] [⟨"r1", "2025-12-25", none, none, none⟩] "GA" 20447 20447
     ⟨⟨"r1", "2025-12-25", none, none, none⟩, by decide,
      by decide, by decide, Or.inl (by decide)⟩⟩

/-- C5: for every region whose configured workdays are Monday through
Friday (`[1, 2, 3, 4, 5]`, the shipped "AL" and "SC" entries),
`isDateBlocked` is true on every Saturday (`getDay = 6`) and every Sunday
(`getDay = 0`), for every appointment set and block-rule set. -/
theorem weekend_blocked_spec :
    ∀ (reg : String) (c : StateConfig), STATE_CONFIG reg = some c →
      c.workdays = [1, 2, 3, 4, 5] →
      ∀ (appts : List AppointmentRecord) (rules : List BlockRule) (t d : Int),
        (getDay t = 6 ∨ getDay t = 0) →
        isDateBlocked appts rules (some reg) t d = true := by
  intro reg c hreg hwd appts rules t d hday
  cases hb : isDateBlocked appts rules (some reg) t d with
  | true => rfl
  | false =>
    exfalso
    rw [isDateBlocked_false_iff] at hb
    obtain ⟨-, c2, hc2, -, hcont, -⟩ := hb
    rw [Option.getD_some] at hc2
    rw [hreg] at hc2
    cases hc2
    rw [hwd] at hcont
    cases hday with
    | inl h => rw [h] at hcont; exact absurd hcont (by decide)
    | inr h => rw [h] at hcont; exact absurd hcont (by decide)

/-- C5, witness: 1970-01-03 (epoch day 2, a Saturday) is blocked for "AL"
with the empty store. -/
theorem weekend_blocked_spec_witness :
    STATE_CONFIG "AL" = some ⟨2, [1, 2, 3, 4, 5]⟩ ∧
    getDay 2 = 6 ∧
    isDateBlocked [] [] (some "AL") 2 0 = true :=
  ⟨by decide, by decide,
   weekend_blocked_spec "AL" ⟨2, [1, 2, 3, 4, 5]⟩ (by decide) (by decide)
     [] [] 2 0 (Or.inl (by decide))⟩

/-- C10: the holiday list contains exactly the two literal date strings
"2024-12-25" and "2024-01-01", so the holiday step of `isDateBlocked`
blocks no other date string; in particular 2025-12-25 (epoch day 20447,
a Thursday) is not blocked for "GA" with the empty store. -/
theorem holiday_blocks_exact :
    (∀ s : String, HOLIDAY_BLOCKS.contains s = true ↔
      s = "2024-12-25" ∨ s = "2024-01-01") ∧
    formatDate 20447 = "2025-12-25" ∧
    isDateBlocked [] [] (some "GA") 20447 20447 = false := by
  refine ⟨?_, by decide, by decide⟩
  intro s
  constructor
  · intro h
    rw [List.contains_iff_exists_mem_beq] at h
    obtain ⟨a, ha, hbeq⟩ := h
    rw [beq_iff_eq] at hbeq
    subst hbeq
    simp only [HOLIDAY_BLOCKS, List.mem_cons, List.not_mem_nil, or_false] at ha
    exact ha
  · intro h
    rw [List.contains_iff_exists_mem_beq]
    cases h with
    | inl h => exact ⟨"2024-12-25", by simp [HOLIDAY_BLOCKS], by rw [beq_iff_eq, h]⟩
    | inr h => exact ⟨"2024-01-01", by simp [HOLIDAY_BLOCKS], by rw [beq_iff_eq, h]⟩

/-- C6: the bulk block-date editor's unblock toggle removes only whole-day
rules whose state scope exactly equals the active region filter: with a
specific region selected it removes that date's whole-day rules scoped to
that region and keeps global (unscoped) ones; with the all-regions filter
it removes only unscoped rules and keeps state-scoped ones; the result is a
sublist of the working copy, so no "all regions except one" rule is ever
synthesized. -/
theorem unblock_exact_scope :
    ∀ (tempRules : List BlockRule) (dStr newId : String),
      (∀ S : String, isDayBlocked tempRules dStr (some S) = true →
        List.Sublist (toggleDateBlockFromCalendar tempRules dStr (some S) newId) tempRules ∧
        ∀ r : BlockRule,
          r ∈ toggleDateBlockFromCalendar tempRules dStr (some S) newId ↔
            r ∈ tempRules ∧ ¬(r.date = dStr ∧ jsFalsy r.time = true ∧ r.state = some S)) ∧
      (isDayBlocked tempRules dStr none = true →
        List.Sublist (toggleDateBlockFromCalendar tempRules dStr none newId) tempRules ∧
        ∀ r : BlockRule,
          r ∈ toggleDateBlockFromCalendar tempRules dStr none newId ↔
            r ∈ tempRules ∧ ¬(r.date = dStr ∧ jsFalsy r.time = true ∧ r.state = none)) := by
  intro tempRules dStr newId
  constructor
  · intro S hblk
    unfold toggleDateBlockFromCalendar
    simp only [hblk, if_true]
    refine ⟨List.filter_sublist _, ?_⟩
    intro r
    simp only [List.mem_filter]
    apply and_congr Iff.rfl
    by_cases hsd : (r.date == dStr && jsFalsy r.time) = true
    · simp only [hsd, Bool.not_true, Bool.false_eq_true, if_false]
      rw [show ((r.state != some S) = true) ↔ r.state ≠ some S from bne_iff_ne]
      simp only [Bool.and_eq_true, beq_iff_eq] at hsd
      simp [hsd.1, hsd.2]
    · have hsd2 : ¬(r.date = dStr ∧ jsFalsy r.time = true) := by
        intro hc
        apply hsd
        simp [hc.1, hc.2]
      rw [Bool.not_eq_true] at hsd
      simp only [hsd, Bool.not_false, if_true, true_iff]
      intro hcon
      exact hsd2 ⟨hcon.1, hcon.2.1⟩
  · intro hblk
    unfold toggleDateBlockFromCalendar
    simp only [hblk, if_true]
    refine ⟨List.filter_sublist _, ?_⟩
    intro r
    simp only [List.mem_filter]
    apply and_congr Iff.rfl
    by_cases hsd : (r.date == dStr && jsFalsy r.time) = true
    · simp only [hsd, Bool.not_true, Bool.false_eq_true, if_false]
      rw [show (r.state.isSome = true) ↔ r.state ≠ none from Option.isSome_iff_ne_none]
      simp only [Bool.and_eq_true, beq_iff_eq] at hsd
      simp [hsd.1, hsd.2]
    · have hsd2 : ¬(r.date = dStr ∧ jsFalsy r.time = true) := by
        intro hc
        apply hsd
        simp [hc.1, hc.2]
      rw [Bool.not_eq_true] at hsd
      simp only [hsd, Bool.not_false, if_true, true_iff]
      intro hcon
      exact hsd2 ⟨hcon.1, hcon.2.1⟩

/-- C6, witness: on a working copy holding a global rule and a "GA"-scoped
rule for 2025-12-25, the "GA" unblock toggle keeps the global rule, and the
all-regions toggle keeps the "GA"-scoped rule. -/
theorem unblock_exact_scope_witness :
    isDayBlocked
      [⟨"g", "2025-12-25", none, none, none⟩, ⟨"s", "2025-12-25", none, some "GA", none⟩]
      "2025-12-25" (some "GA") = true ∧
    (⟨"g", "2025-12-25", none, none, none⟩ : BlockRule) ∈
      toggleDateBlockFromCalendar
        [⟨"g", "2025-12-25", none, none, none⟩, ⟨"s", "2025-12-25", none, some "GA", none⟩]
        "2025-12-25" (some "GA") "tmp" ∧
    isDayBlocked
      [⟨"g", "2025-12-25", none, none, none⟩, ⟨"s", "2025-12-25", none, some "GA", none⟩]
      "2025-12-25" none = true ∧
    (⟨"s", "2025-12-25", none, some "GA", none⟩ : BlockRule) ∈
      toggleDateBlockFromCalendar
        [⟨"g", "2025-12-25", none, none, none⟩, ⟨"s", "2025-12-25", none, some "GA", none⟩]
        "2025-12-25" none "tmp" :=
  ⟨by decide,
   (((unblock_exact_scope
      [⟨"g", "2025-12-25", none, none, none⟩, ⟨"s", "2025-12-25", none, some "GA", none⟩]
      "2025-12-25" "tmp").1 "GA" (by decide)).2 _).mpr ⟨by decide, by decide⟩,
   by decide,
   (((unblock_exact_scope
      [⟨"g", "2025-12-25", none, none, none⟩, ⟨"s", "2025-12-25", none, some "GA", none⟩]
      "2025-12-25" "tmp").2 (by decide)).2 _).mpr ⟨by decide, by decide⟩⟩

/-- C7: the batch committed by the block-date editor deletes exactly the
identifiers present in the committed rule set but absent from the working
copy, and inserts exactly the working-copy rules whose identifiers are
absent from the committed set, with their client identifiers stripped from
the insert payload. -/
theorem saveBlockModal_diff_exact :
    ∀ (committed working : List BlockRule),
      (∀ idv : String,
        idv ∈ (saveBlockModalBatch committed working).1 ↔
          (∃ br ∈ committed, br.id = idv) ∧ ∀ tr ∈ working, tr.id ≠ idv) ∧
      (∀ payload : BlockRuleInsert,
        payload ∈ (saveBlockModalBatch committed working).2 ↔
          ∃ tr ∈ working, stripId tr = payload ∧ ∀ br ∈ committed, br.id ≠ tr.id) := by
  intro committed working
  constructor
  · intro idv
    simp only [saveBlockModalBatch, List.mem_map, List.mem_filter,
      Bool.not_eq_true', List.any_eq_false, beq_iff_eq]
    constructor
    · rintro ⟨br, ⟨hmem, hnone⟩, hid⟩
      exact ⟨⟨br, hmem, hid⟩, fun tr htr => hid ▸ hnone tr htr⟩
    · rintro ⟨⟨br, hmem, hid⟩, hnone⟩
      exact ⟨br, ⟨hmem, fun tr htr => hid ▸ hnone tr htr⟩, hid⟩
  · intro payload
    simp only [saveBlockModalBatch, List.mem_map, List.mem_filter,
      Bool.not_eq_true', List.any_eq_false, beq_iff_eq]
    constructor
    · rintro ⟨tr, ⟨hmem, hnone⟩, hstr⟩
      exact ⟨tr, hmem, hstr, fun br hbr => hnone br hbr⟩
    · rintro ⟨tr, hmem, hstr, hnone⟩
      exact ⟨tr, ⟨hmem, fun br hbr => hnone br hbr⟩, hstr⟩

/-- C7, witness: with one committed rule "old" and a working copy holding
only the temporary rule "tmp", the batch deletes "old" and inserts the
id-stripped "tmp" payload. -/
theorem saveBlockModal_diff_exact_witness :
    "old" ∈ (saveBlockModalBatch
      [⟨"old", "2025-12-24", none, none, none⟩]
      [⟨"tmp", "2025-12-26", none, some "GA", none⟩]).1 ∧
    (⟨"2025-12-26", none, some "GA", none⟩ : BlockRuleInsert) ∈
      (saveBlockModalBatch
        [⟨"old", "2025-12-24", none, none, none⟩]
        [⟨"tmp", "2025-12-26", none, some "GA", none⟩]).2 :=
  ⟨((saveBlockModal_diff_exact
      [⟨"old", "2025-12-24", none, none, none⟩]
      [⟨"tmp", "2025-12-26", none, some "GA", none⟩]).1 "old").mpr
    ⟨⟨⟨"old", "2025-12-24", none, none, none⟩, by decide, rfl⟩, by decide⟩,
   ((saveBlockModal_diff_exact
      [⟨"old", "2025-12-24", none, none, none⟩]
      [⟨"tmp", "2025-12-26", none, some "GA", none⟩]).2 _).mpr
    ⟨⟨"tmp", "2025-12-26", none, some "GA", none⟩, by decide, rfl, by decide⟩⟩

theorem concatTexts_nil : concatTexts [] = "" := rfl

theorem concatTexts_cons (x : String) (xs : List String) :
    concatTexts (x :: xs) = x ++ concatTexts xs := rfl

theorem foldl_emit_eq (p : FormField → Bool) (g : FormField → String)
    (l : List FormField) :
    ∀ acc : String,
      l.foldl (fun a f => if p f then a ++ g f else a) acc =
      acc ++ concatTexts ((l.filter p).map g) := by
  induction l with
  | nil =>
    intro acc
    simp [concatTexts_nil]
  | cons f fs ih =>
    intro acc
    by_cases hp : p f = true
    · rw [List.foldl_cons]
      simp only [hp, if_true]
      rw [ih (acc ++ g f)]
      simp only [List.filter_cons, hp, if_true, List.map_cons, concatTexts_cons]
      rw [String.append_assoc]
    · rw [List.foldl_cons]
      rw [Bool.not_eq_true] at hp
      simp only [hp, Bool.false_eq_true, if_false]
      rw [ih acc]
      simp only [List.filter_cons, hp, Bool.false_eq_true, if_false]

/-- C8: `generateClipboardText` equals the concatenation, in schema order,
of `prefix + value + suffix` over exactly the visible fields with a
non-empty value, followed by the fixed trailing confirmation line
"Did you confirm the physical address?: Yes", with emoji code points
stripped from the result; both sides are total Lean functions of
(schema, data), hence deterministic. -/
theorem generateClipboardText_spec :
    ∀ (data : List (String × String)) (schema : List FormField),
      generateClipboardText data schema = clipboardTextSpec data schema := by
  intro data schema
  unfold generateClipboardText clipboardTextSpec
  rw [foldl_emit_eq
    (fun f => isFieldVisible f data && !(jsFalsy (getField data f.id)))
    (fieldText data) schema ""]
  rfl

/-- C9: in the schedule grid's single-slot toggle, when the only rule
matching the current date and time `t` is a global one (no state), the
toggle for any region deletes that global rule: the result is the rule set
with that rule's identifier filtered out, the global rule is gone, and the
slot is then unblocked for every region, not only the one being viewed. -/
theorem toggleBlockTime_global_unblock :
    ∀ (rules : List BlockRule) (dStr t reg newId : String) (g : BlockRule),
      g ∈ rules → g.date = dStr → g.time = some t → g.state = none →
      (∀ r ∈ rules, r.date = dStr → r.time = some t → r.id = g.id) →
      toggleBlockTime rules dStr t reg newId =
        rules.filter (fun r => r.id != g.id) ∧
      g ∉ toggleBlockTime rules dStr t reg newId ∧
      ∀ reg2 : String,
        isTimeBlocked (toggleBlockTime rules dStr t reg newId) dStr t reg2 = false := by
  intro rules dStr t reg newId g hg hgd hgt hgs huniq
  have hpred : (g.date == dStr && g.time == some t &&
      (jsFalsy g.state || g.state == some reg)) = true := by
    rw [hgd, hgt, hgs]
    simp [jsFalsy]
  cases hfind : rules.find? (fun r => r.date == dStr && r.time == some t &&
      (jsFalsy r.state || r.state == some reg)) with
  | none =>
    exact absurd hpred (List.find?_eq_none.mp hfind g hg)
  | some r0 =>
    have hr0p := List.find?_some hfind
    have hr0mem := List.mem_of_find?_eq_some hfind
    simp only [Bool.and_eq_true, beq_iff_eq] at hr0p
    have hid : r0.id = g.id := huniq r0 hr0mem hr0p.1.1 hr0p.1.2
    have hres : toggleBlockTime rules dStr t reg newId =
        rules.filter (fun r => r.id != g.id) := by
      unfold toggleBlockTime
      rw [hfind]
      simp only [hid]
    refine ⟨hres, ?_, ?_⟩
    · rw [hres]
      simp [List.mem_filter]
    · intro reg2
      rw [hres]
      unfold isTimeBlocked
      rw [List.any_eq_false]
      intro x hx
      rw [List.mem_filter] at hx
      intro hpx
      simp only [Bool.and_eq_true, beq_iff_eq] at hpx
      have hxid : x.id = g.id := huniq x hx.1 hpx.1.1 hpx.1.2
      exact absurd hxid (bne_iff_ne.mp hx.2)

/-- C9, witness: a rule set whose only rule is a global slot block on
(2025-12-25, 9:00 AM); toggling from the "GA" view deletes it and the slot
becomes unblocked for "TN" as well. -/
theorem toggleBlockTime_global_unblock_witness :
    ((⟨"g1", "2025-12-25", some "9:00 AM", none, none⟩ : BlockRule) ∈
      [(⟨"g1", "2025-12-25", some "9:00 AM", none, none⟩ : BlockRule)]) ∧
    isTimeBlocked
      (toggleBlockTime [⟨"g1", "2025-12-25", some "9:00 AM", none, none⟩]
        "2025-12-25" "9:00 AM" "GA" "n1") "2025-12-25" "9:00 AM" "TN" = false :=
  ⟨by decide,
   (toggleBlockTime_global_unblock
      [⟨"g1", "2025-12-25", some "9:00 AM", none, none⟩]
      "2025-12-25" "9:00 AM" "GA" "n1"
      ⟨"g1", "2025-12-25", some "9:00 AM", none, none⟩
      (by decide) rfl rfl rfl (by decide)).2.2 "TN"⟩

/-- C1, witness: the unknown region "ZZ" makes any slot unavailable, via
the specification equivalence. -/
theorem isSlotUnavailable_spec_witness :
    STATE_CONFIG "ZZ" = none ∧
    isSlotUnavailable [] [] "2025-01-07" "9:00 AM" "ZZ" = true :=
  ⟨by decide,
   (isSlotUnavailable_spec.1 [] [] "2025-01-07" "9:00 AM" "ZZ").mpr
     (Or.inl (by decide))⟩

/-- C10, witness: "2024-12-25" is in the holiday list, via the exactness
equivalence, and "2025-12-25" is not. -/
theorem holiday_blocks_exact_witness :
    HOLIDAY_BLOCKS.contains "2024-12-25" = true ∧
    HOLIDAY_BLOCKS.contains "2025-12-25" = false :=
  ⟨(holiday_blocks_exact.1 "2024-12-25").mpr (Or.inl rfl), by decide⟩

end RoofConnect
